import Mathlib

/-!
Verification development for the text-to-sql-poc repository.

The validator (`src/agents/sql_validator_agent.py`), the conversation
context manager (`src/core/context_manager.py`), the SQL cleanup step of
the generation agent (`src/agents/text_to_sql_agent.py`) and the
orchestration pipeline (`src/core/workflow.py`) are embedded as pure
Lean functions over `List Char` / `String`.

Modelling conventions:
* Python strings are modelled over ASCII: `str.upper` / `str.lower`
  become `Char.toUpper` / `Char.toLower`, the regex classes `\w`, `\s`
  and `[a-zA-Z0-9_]` become the corresponding ASCII character tests.
* The third-party `sqlparse` library is abstracted by a small oracle
  record (`SqlParseOracle`): whether `sqlparse.parse` returns at least
  one statement, and whether the first statement's first DML token is
  SELECT.  Theorems about the validator take the oracle's answers as
  explicit inputs.
* Python's float threshold `max_tokens * 0.8` is modelled by the exact
  rational comparison `4 * max_tokens < 5 * total`; for integer totals
  and the integer budgets used by the program the two comparisons agree.
* `datetime.utcnow()` is an external clock; entry timestamps are `Nat`
  values supplied by the caller of `add_entry`.
-/

namespace TextToSQL

/-! ## Character level helpers (ASCII model of Python `re` / `str`) -/

/-- ASCII model of the regex word class `\w` : letters, digits, underscore. -/
def isWordChar (c : Char) : Bool := c.isAlphanum || c == '_'

/-- ASCII model of the regex class `\s` (Python `str.split` whitespace). -/
def isPySpace (c : Char) : Bool :=
  c == ' ' || c == '\t' || c == '\n' || c == '\x0d' || c == '\x0b' || c == '\x0c'

/-- Does the word `w` match at the head of `s`, with a `\b` boundary after it?
`matchWordAt w s` is true iff `w` is a prefix of `s` and the character of `s`
right after `w` (if any) is not a word character. -/
def matchWordAt : List Char → List Char → Bool
  | [], [] => true
  | [], c :: _ => !(isWordChar c)
  | _ :: _, [] => false
  | a :: w, c :: s => a == c && matchWordAt w s

/-- Scan `s` for a whole-word occurrence of `w` (the `\bW\b` regex search).
`prevWord` records whether the character just before the current position is
a word character (false at the start of the string). -/
def searchWordFrom (w : List Char) : Bool → List Char → Bool
  | _, [] => false
  | prevWord, c :: rest =>
    (!prevWord && matchWordAt w (c :: rest)) || searchWordFrom w (isWordChar c) rest

/-- Model of `re.search(r'\b' + keyword + r'\b', sql_query.upper())`:
whole-word, case-insensitive (via upper-casing the query) search. -/
def containsWord (w : String) (q : String) : Bool :=
  searchWordFrom w.toList false (q.toList.map Char.toUpper)

/-! ## Forbidden keyword scan (`_check_forbidden_keywords`) -/

/-- The deny-list of `SQLValidatorAgent.forbidden_keywords`, in source
literal order.  (The Python object is a `set`, whose iteration order is
unspecified; no claim depends on which of several matching keywords is
reported first.) -/
def forbidden_keywords : List String :=
  ["DROP", "DELETE", "UPDATE", "INSERT", "CREATE", "ALTER", "TRUNCATE",
   "EXEC", "EXECUTE", "UNION", "GRANT", "REVOKE"]

/-- Embedding of `SQLValidatorAgent._check_forbidden_keywords`: the first
deny-listed keyword that occurs as a whole word (case-insensitively) in the
query, if any. -/
def check_forbidden_keywords (q : String) : Option String :=
  forbidden_keywords.find? (fun kw => containsWord kw q)

/-! ## Table-name extraction (`_extract_table_names`, `_validate_table_names`) -/

/-- Start of the regex identifier class `[a-zA-Z_]`. -/
def isIdentStart (c : Char) : Bool := c.isAlpha || c == '_'

/-- Continuation of the regex identifier class `[a-zA-Z0-9_]`. -/
def isIdentChar (c : Char) : Bool := c.isAlphanum || c == '_'

/-- Strip the literal `pat` (given in lowercase) from the head of `s`,
case-insensitively; returns the remaining suffix on success. -/
def stripLitCI : List Char → List Char → Option (List Char)
  | [], s => some s
  | _ :: _, [] => none
  | p :: ps, c :: cs => if Char.toLower c == p then stripLitCI ps cs else none

/-- After `FROM`/`JOIN` has been consumed: match `\s+([a-zA-Z_][a-zA-Z0-9_]*)`,
returning the captured identifier and the suffix after the match. -/
def matchSpacesIdent (rest : List Char) : Option (List Char × List Char) :=
  match rest with
  | [] => none
  | c :: cs =>
    if isPySpace c then
      match cs.dropWhile isPySpace with
      | [] => none
      | d :: ds =>
        if isIdentStart d then
          some (d :: ds.takeWhile isIdentChar, ds.dropWhile isIdentChar)
        else none
    else none

/-- Match the regex `(?:FROM|JOIN)\s+([a-zA-Z_][a-zA-Z0-9_]*)` (ignore-case)
at the head of `s`. -/
def matchFromJoin (s : List Char) : Option (List Char × List Char) :=
  match stripLitCI ['f', 'r', 'o', 'm'] s with
  | some rest => matchSpacesIdent rest
  | none =>
    match stripLitCI ['j', 'o', 'i', 'n'] s with
    | some rest => matchSpacesIdent rest
    | none => none

/-- Left-to-right non-overlapping scan of `re.findall` for the pattern
`\b(?:FROM|JOIN)\s+([a-zA-Z_][a-zA-Z0-9_]*)` (ignore-case).  `prevWord`
tracks the `\b` boundary; the fuel is at least the length of the remaining
input (each step consumes at least one character). -/
def findFromJoinAux : Nat → Bool → List Char → List (List Char)
  | 0, _, _ => []
  | _ + 1, _, [] => []
  | fuel + 1, prevWord, c :: rest =>
    match (if prevWord then none else matchFromJoin (c :: rest)) with
    | some (name, rest2) => name :: findFromJoinAux fuel true rest2
    | none => findFromJoinAux fuel (isWordChar c) rest

/-- Keep the first occurrence of each string, dropping later duplicates
(the model of Python's `list(set(matches))`, whose order is unspecified). -/
def dedupKeepFirst : List String → List String → List String
  | _, [] => []
  | seen, x :: xs =>
    if seen.contains x then dedupKeepFirst seen xs
    else x :: dedupKeepFirst (x :: seen) xs

/-- Embedding of `SQLValidatorAgent._extract_table_names`: all identifiers
captured after `FROM`/`JOIN`, deduplicated. -/
def extract_table_names (q : String) : List String :=
  dedupKeepFirst [] ((findFromJoinAux q.toList.length false q.toList).map
    (fun l => String.mk l))

/-- Lowercase a string (ASCII model of `str.lower`). -/
def pyLower (s : String) : String := String.mk (s.toList.map Char.toLower)

/-- The fixed allow-list `SQLValidatorAgent.valid_tables`. -/
def valid_tables : List String :=
  ["stores", "customers", "products", "orders", "order_items"]

/-- Embedding of `SQLValidatorAgent._validate_table_names`: the extracted
names whose lowercase form is not in the allow-list, in extraction order. -/
def validate_table_names (q : String) : List String :=
  (extract_table_names q).filter (fun t => !(valid_tables.contains (pyLower t)))

/-! ## Injection-pattern scan (`_check_sql_injection`)

Each source pattern has the shape `A.*B` for two literals `A`, `B`; in
Python `.` does not match a newline, so a match is: an occurrence of `A`
followed (with no intervening newline) by an occurrence of `B`. -/

/-- The single-quote character, written by code point to keep source lines
free of quote characters. -/
def sqChar : Char := Char.ofNat 39

/-- Is there an occurrence of the literal `b` at or after the current
position, with no newline strictly before it? -/
def litBeforeNewline (b : List Char) : List Char → Bool
  | [] => false
  | c :: rest =>
    b.isPrefixOf (c :: rest) || (!(c == '\n') && litBeforeNewline b rest)

/-- Search for `A.*B` (with `.` not matching newline) anywhere in `s`. -/
def pairSearch (a b : List Char) : List Char → Bool
  | [] => false
  | c :: rest =>
    (a.isPrefixOf (c :: rest) && litBeforeNewline b (List.drop a.length (c :: rest)))
      || pairSearch a b rest

/-- One injection pattern `first.*second`, with the literal regex text used
in the reported message. -/
structure InjPattern where
  first : List Char
  second : List Char
  display : String
deriving DecidableEq

/-- The four fixed patterns of `_check_sql_injection`, in source order. -/
def injection_patterns : List InjPattern :=
  [⟨[sqChar, ';'], ['-', '-'], String.mk [sqChar, ';', '.', '*', '-', '-']⟩,
   ⟨['u', 'n', 'i', 'o', 'n'], ['s', 'e', 'l', 'e', 'c', 't'], "union.*select"⟩,
   ⟨['o', 'r'], ['1', '=', '1'], "or.*1=1"⟩,
   ⟨['a', 'n', 'd'], ['1', '=', '1'], "and.*1=1"⟩]

/-- Does pattern `p` fire on the lowercased query? -/
def injMatches (p : InjPattern) (q : String) : Bool :=
  pairSearch p.first p.second (q.toList.map Char.toLower)

/-- Embedding of `SQLValidatorAgent._check_sql_injection`. -/
def check_sql_injection (q : String) : Option String :=
  match injection_patterns.find? (fun p => injMatches p q) with
  | some p => some ("Pattern: " ++ p.display)
  | none => none

/-! ## The validator verdict (`_validate_query`) -/

/-- Answers of the external `sqlparse` library for one query string:
whether `sqlparse.parse` returned at least one statement, and whether
`_is_select_statement` found the first DML token to be SELECT. -/
structure SqlParseOracle where
  parsesNonempty : Bool
  firstIsSelect : Bool
deriving DecidableEq

/-- The validation dictionary built by `_validate_query`. -/
structure ValidationResult where
  is_valid : Bool
  error : Option String
  tables_used : Option (List String)
deriving DecidableEq

/-- Embedding of `SQLValidatorAgent._validate_query`, with the `sqlparse`
answers supplied by `po`.  The five checks run in source order with
first-failure-wins short-circuiting. -/
def validate_query (po : SqlParseOracle) (q : String) : ValidationResult :=
  if po.parsesNonempty then
    match check_forbidden_keywords q with
    | some kw =>
      { is_valid := false, error := some ("Forbidden keyword found: " ++ kw),
        tables_used := none }
    | none =>
      if po.firstIsSelect then
        match validate_table_names q with
        | t :: ts =>
          { is_valid := false,
            error := some ("Invalid table names: " ++ String.intercalate ", " (t :: ts)),
            tables_used := none }
        | [] =>
          match check_sql_injection q with
          | some msg =>
            { is_valid := false,
              error := some ("Potential SQL injection detected: " ++ msg),
              tables_used := none }
          | none =>
            { is_valid := true, error := none,
              tables_used := some (extract_table_names q) }
      else
        { is_valid := false, error := some "Only SELECT statements are allowed",
          tables_used := none }
  else
    { is_valid := false, error := some "Unable to parse SQL query",
      tables_used := none }

/-! ## SQL cleanup (`TextToSQLAgent._clean_sql_query`) -/

/-- Remove every non-overlapping occurrence of `pat` from `s`, scanning left
to right (Python `str.replace(pat, "")`).  The fuel is at least the length
of `s`; every step consumes at least one character for nonempty `pat`. -/
def removeSubAux : Nat → List Char → List Char → List Char
  | 0, _, s => s
  | _ + 1, _, [] => []
  | fuel + 1, pat, c :: rest =>
    if pat.isPrefixOf (c :: rest) then
      removeSubAux fuel pat (List.drop pat.length (c :: rest))
    else c :: removeSubAux fuel pat rest

/-- Python `s.replace(pat, "")` for a nonempty `pat`. -/
def removeSub (pat : String) (s : List Char) : List Char :=
  removeSubAux s.length pat.toList s

/-- Python `str.split()` (split on whitespace runs, dropping empty pieces);
`acc` is the current word reversed. -/
def pyWordsAux : List Char → List Char → List (List Char)
  | acc, [] => if acc.isEmpty then [] else [acc.reverse]
  | acc, c :: rest =>
    if isPySpace c then
      if acc.isEmpty then pyWordsAux [] rest
      else acc.reverse :: pyWordsAux [] rest
    else pyWordsAux (c :: acc) rest

/-- Python `str.strip()`. -/
def pyStrip (s : String) : String :=
  String.mk (((s.toList.dropWhile isPySpace).reverse.dropWhile isPySpace).reverse)

/-- Does the character list end with a semicolon (`str.endswith(";")`)? -/
def endsWithSemi (l : List Char) : Bool :=
  match l.getLast? with
  | some c => c == ';'
  | none => false

/-- Final step of the cleanup: append a semicolon when absent. -/
def ensureSemi (l : List Char) : List Char :=
  if endsWithSemi l then l else l ++ [';']

/-- Embedding of `TextToSQLAgent._clean_sql_query`: drop fence markers and
SQL:/Query: labels, collapse whitespace runs, and append a final semicolon
when the string does not already end with one. -/
def clean_sql_query (s : String) : String :=
  let l1 := removeSub "```sql" s.toList
  let l2 := removeSub "```" l1
  let l3 := removeSub "SQL:" l2
  let l4 := removeSub "Query:" l3
  String.mk (ensureSemi (List.intercalate [' '] (pyWordsAux [] l4)))

/-! ## Context manager (`src/core/context_manager.py`) -/

/-- Embedding of the dataclass `ConversationEntry`.  The timestamp is the
external clock reading (`datetime.utcnow()`) modelled as a `Nat`; the token
count is a Python `int`, hence `Int`. -/
structure ConversationEntry where
  timestamp : Nat
  user_query : String
  sql_query : Option String
  success : Bool
  result_summary : String
  token_count : Int
deriving DecidableEq

/-- Embedding of the mutable state of `ContextManager`. -/
structure ContextManager where
  max_entries : Nat
  conversation_history : List ConversationEntry
  total_tokens : Int
  max_tokens : Int
deriving DecidableEq

/-- Default of `settings.max_tokens` (`src/config/settings.py`, overridable
by the MAX_TOKENS environment variable). -/
def settings_max_tokens : Int := 4000

/-- Default of `settings.context_window_size` (CONTEXT_WINDOW_SIZE). -/
def settings_context_window_size : Nat := 10

/-- A fresh `ContextManager(max_entries)` with the given token budget. -/
def initCM (maxE : Nat) (maxT : Int) : ContextManager :=
  { max_entries := maxE, conversation_history := [], total_tokens := 0,
    max_tokens := maxT }

/-- Sum of the token counts of a ledger. -/
def sumTokens (h : List ConversationEntry) : Int :=
  (h.map ConversationEntry.token_count).sum

/-- First loop of `_maintain_context_window`: while the entry count exceeds
`max_entries`, pop the oldest entry and subtract its token count. -/
def evictOverCount : List ConversationEntry → Int → Nat → List ConversationEntry × Int
  | [], tot, _ => ([], tot)
  | e :: rest, tot, maxE =>
    if maxE < (e :: rest).length then evictOverCount rest (tot - e.token_count) maxE
    else (e :: rest, tot)

/-- Second loop of `_maintain_context_window`: while the running total
exceeds `max_tokens * 0.8` (modelled exactly as `4 * maxT < 5 * tot`) and
more than one entry remains, pop the oldest entry. -/
def evictOverTokens : List ConversationEntry → Int → Int → List ConversationEntry × Int
  | [], tot, _ => ([], tot)
  | [e], tot, _ => ([e], tot)
  | e :: e2 :: rest, tot, maxT =>
    if 4 * maxT < 5 * tot then evictOverTokens (e2 :: rest) (tot - e.token_count) maxT
    else (e :: e2 :: rest, tot)

/-- Embedding of `ContextManager._maintain_context_window`. -/
def maintain_context_window (cm : ContextManager) : ContextManager :=
  let p1 := evictOverCount cm.conversation_history cm.total_tokens cm.max_entries
  let p2 := evictOverTokens p1.1 p1.2 cm.max_tokens
  { cm with conversation_history := p2.1, total_tokens := p2.2 }

/-- Build the entry appended by `add_entry`. -/
def mkEntry (ts : Nat) (uq : String) (sq : Option String) (succ : Bool)
    (rs : String) (tc : Int) : ConversationEntry :=
  { timestamp := ts, user_query := uq, sql_query := sq, success := succ,
    result_summary := rs, token_count := tc }

/-- Embedding of `ContextManager.add_entry` (the spec's `record`): append
the new entry, add its token count, then run window maintenance. -/
def add_entry (cm : ContextManager) (ts : Nat) (uq : String) (sq : Option String)
    (succ : Bool) (rs : String) (tc : Int) : ContextManager :=
  maintain_context_window
    { cm with
      conversation_history := cm.conversation_history ++ [mkEntry ts uq sq succ rs tc],
      total_tokens := cm.total_tokens + tc }

/-- Embedding of `ContextManager.clear_context`. -/
def clear_context (cm : ContextManager) : ContextManager :=
  { cm with conversation_history := [], total_tokens := 0 }

/-- One mutation of the ledger: a `record` (`add_entry`) call with the clock
reading and the entry fields, or a `clear_context` call. -/
inductive ContextOp where
  | record (ts : Nat) (uq : String) (sq : Option String) (succ : Bool)
      (rs : String) (tc : Int)
  | clear
deriving DecidableEq

/-- Apply one mutation. -/
def applyOp (cm : ContextManager) : ContextOp → ContextManager
  | ContextOp.record ts uq sq succ rs tc => add_entry cm ts uq sq succ rs tc
  | ContextOp.clear => clear_context cm

/-- Apply a sequence of mutations, oldest first. -/
def applyOps (cm : ContextManager) (ops : List ContextOp) : ContextManager :=
  ops.foldl applyOp cm

/-- Python truthiness of an optional string (`None` and `""` are falsy). -/
def optTruthy : Option String → Bool
  | none => false
  | some s => !(s == "")

/-- The filter of `get_context_for_llm`: `entry.success and entry.sql_query`. -/
def qualifiesForContext (e : ConversationEntry) : Bool :=
  e.success && optTruthy e.sql_query

/-- The last `n` elements of a list (`l[-n:]`). -/
def lastN (n : Nat) (l : List α) : List α := l.drop (l.length - n)

/-- One element of the `previous_queries` payload. -/
structure PrevQuery where
  user_query : String
  sql_query : String
  timestamp : Nat
deriving DecidableEq

/-- The dictionary returned by `get_context_for_llm`; on an empty history
the source returns only the `previous_queries` key, modelled by `none` in
the remaining fields. -/
structure LLMContext where
  previous_queries : List PrevQuery
  total_conversations : Option Nat
  context_window_usage : Option String
deriving DecidableEq

/-- Embedding of `ContextManager.get_context_for_llm` (the spec's
`context_for_generation`): the qualifying entries among the last five of
the ledger, in ledger order. -/
def get_context_for_llm (cm : ContextManager) : LLMContext :=
  match cm.conversation_history with
  | [] => { previous_queries := [], total_conversations := none,
            context_window_usage := none }
  | _ :: _ =>
    { previous_queries :=
        ((lastN 5 cm.conversation_history).filter qualifiesForContext).map
          (fun e => { user_query := e.user_query, sql_query := e.sql_query.getD "",
                      timestamp := e.timestamp }),
      total_conversations := some cm.conversation_history.length,
      context_window_usage :=
        some (toString cm.conversation_history.length ++ "/" ++ toString cm.max_entries) }

/-! ## Orchestration pipeline (`src/core/workflow.py`)

The two blocking collaborators (the language model call inside
`TextToSQLAgent.process`, the database/pandas calls inside
`SQLExecutorAgent._execute_query` and the pandas formatting inside
`ResultFormatterAgent._format_success_result`) are passed in as explicit
oracles; an `Except.error` models a raised exception (or, for the
executor, the error dictionary its own handler builds). -/

/-- Embedding of the execution-result dictionary built by
`SQLExecutorAgent._execute_query` (row data abstracted to its count). -/
structure ExecResult where
  success : Bool
  row_count : Nat
  error : Option String
  truncated : Bool
deriving DecidableEq

/-- Embedding of the pydantic `AgentState` threaded through the graph. -/
structure AgentState where
  user_query : String
  sql_query : Option String
  validation_result : Option ValidationResult
  execution_result : Option ExecResult
  formatted_result : Option String
  error_message : Option String
deriving DecidableEq

/-- Fresh state for one turn. -/
def initState (uq : String) : AgentState :=
  { user_query := uq, sql_query := none, validation_result := none,
    execution_result := none, formatted_result := none, error_message := none }

/-- Embedding of `TextToSQLAgent.process`: `gen` is the outcome of the
schema lookup plus `llm.ainvoke` (an `Except.error` models a raised
exception caught by the agent's handler).  On success the raw text is
stripped and cleaned; on failure only the error message is set. -/
def text_to_sql_process (gen : Except String String) (st : AgentState) : AgentState :=
  match gen with
  | Except.ok raw => { st with sql_query := some (clean_sql_query (pyStrip raw)) }
  | Except.error e =>
    { st with error_message := some ("Text-to-SQL conversion failed: " ++ e) }

/-- Embedding of `SQLValidatorAgent.process`: `po` gives the `sqlparse`
answers for the query being validated. -/
def validator_process (po : String → SqlParseOracle) (st : AgentState) : AgentState :=
  if !(optTruthy st.sql_query) then
    { st with error_message := some "No SQL query to validate" }
  else
    let sql := st.sql_query.getD ""
    let vr := validate_query (po sql) sql
    if vr.is_valid then { st with validation_result := some vr }
    else
      { st with
        validation_result := some vr,
        error_message := some ("SQL validation failed: " ++ vr.error.getD "") }

/-- Embedding of `SQLExecutorAgent.process`; `execRun` is the outcome
dictionary of `_execute_query` (which catches its own exceptions). -/
def executor_process (execRun : String → ExecResult) (st : AgentState) : AgentState :=
  if !(optTruthy st.sql_query) then
    { st with error_message := some "No SQL query to execute" }
  else if (match st.validation_result with
           | some v => !v.is_valid
           | none => false) then
    { st with error_message := some "Cannot execute invalid SQL query" }
  else
    let r := execRun (st.sql_query.getD "")
    if r.success then { st with execution_result := some r }
    else
      { st with
        execution_result := some r,
        error_message := some ("Query execution failed: " ++ (r.error.getD "Unknown error")) }

/-- Embedding of `ResultFormatterAgent._format_error_result`. -/
def format_error_result (r : ExecResult) : String :=
  "❌ **Query Failed:**\n\n" ++ r.error.getD "Unknown error"

/-- Embedding of `ResultFormatterAgent.process`; `fmtSuccess` is the pandas
rendering of a successful result (an `Except.error` models a raised
exception caught by the agent's handler). -/
def formatter_process (fmtSuccess : ExecResult → Except String String)
    (st : AgentState) : AgentState :=
  match st.execution_result with
  | none => { st with error_message := some "No execution result to format" }
  | some r =>
    if !r.success then { st with formatted_result := some (format_error_result r) }
    else
      match fmtSuccess r with
      | Except.ok s => { st with formatted_result := some s }
      | Except.error e =>
        { st with
          error_message := some ("Result formatting error: " ++ e),
          formatted_result := some ("Error formatting results: " ++ e) }

/-- Embedding of `TextToSQLWorkflow._should_execute`. -/
def should_execute (st : AgentState) : Bool :=
  (match st.validation_result with
   | some v => v.is_valid
   | none => false) && !(optTruthy st.error_message)

/-- The compiled graph: generate, validate, then either execute and format
or end at the conditional edge. -/
def run_workflow (gen : Except String String) (po : String → SqlParseOracle)
    (execRun : String → ExecResult) (fmtSuccess : ExecResult → Except String String)
    (st : AgentState) : AgentState :=
  let st1 := text_to_sql_process gen st
  let st2 := validator_process po st1
  if should_execute st2 then formatter_process fmtSuccess (executor_process execRun st2)
  else st2

/-- Count of Python `str.split()` words (the token-cost proxy). -/
def countWordsAux : Bool → List Char → Nat
  | _, [] => 0
  | inWord, c :: rest =>
    if isPySpace c then countWordsAux false rest
    else (if inWord then 0 else 1) + countWordsAux true rest

/-- `len(s.split())`. -/
def countWords (s : String) : Nat := countWordsAux false s.toList

/-- The structured per-turn outcome of `process_query` (the context-summary
and warning fields, pure projections of the context manager, are omitted). -/
structure QueryResponse where
  success : Bool
  user_query : String
  sql_query : Option String
  formatted_result : Option String
  error_message : Option String
deriving DecidableEq

/-- Embedding of `TextToSQLWorkflow.process_query`: run the four-stage
workflow, derive the turn verdict, record it in the context manager, and
return the response together with the updated manager.  `ts` is the clock
reading used for the recorded entry. -/
def process_query (gen : Except String String) (po : String → SqlParseOracle)
    (execRun : String → ExecResult) (fmtSuccess : ExecResult → Except String String)
    (cm : ContextManager) (ts : Nat) (uq : String) : QueryResponse × ContextManager :=
  let fs := run_workflow gen po execRun fmtSuccess (initState uq)
  let succ := match fs.execution_result with
              | some r => r.success
              | none => false
  let result_summary :=
    if succ then
      "Returned " ++ toString ((fs.execution_result.getD
        { success := false, row_count := 0, error := none, truncated := false }).row_count)
        ++ " rows"
    else
      match fs.error_message with
      | some e => if e == "" then "" else "Error: " ++ e
      | none => ""
  let token_count : Int := (countWords uq : Int) + (countWords (fs.sql_query.getD "") : Int)
  let cm2 := add_entry cm ts uq fs.sql_query succ result_summary token_count
  ({ success := succ, user_query := uq, sql_query := fs.sql_query,
     formatted_result := fs.formatted_result, error_message := fs.error_message },
   cm2)


/-! ## Derived and spec-side definitions used by the claims -/

/-- The accounting invariant of the context manager: the running total
equals the sum of the token counts of the stored entries. -/
def consistent (cm : ContextManager) : Prop :=
  cm.total_tokens = sumTokens cm.conversation_history

/-- The token count recorded by a mutation is non-negative. -/
def opTokenNonneg : ContextOp → Prop
  | ContextOp.record _ _ _ _ _ tc => 0 ≤ tc
  | ContextOp.clear => True

/-- Projection of a ledger entry into the `previous_queries` payload. -/
def projPrevQuery (e : ConversationEntry) : PrevQuery :=
  { user_query := e.user_query, sql_query := e.sql_query.getD "",
    timestamp := e.timestamp }

/-- Spec-side reading of the `context_for_generation` contract (the claim's
words, not the source): the five most recent entries among all qualifying
entries of the whole ledger. -/
def mostRecentFiveQualifying (h : List ConversationEntry) : List ConversationEntry :=
  lastN 5 (h.filter qualifiesForContext)

/-- Spec-side reading of the cleanup contract: the string ends with exactly
one semicolon (a final semicolon not preceded by another one). -/
def endsWithExactlyOneSemi (s : String) : Bool :=
  match s.toList.reverse with
  | [] => false
  | [c] => c == ';'
  | c :: d :: _ => c == ';' && !(d == ';')

/-- Does the literal `pat` occur as a substring? -/
def containsLit (pat : List Char) : List Char → Bool
  | [] => pat.isEmpty
  | c :: rest => pat.isPrefixOf (c :: rest) || containsLit pat rest

/-- A six-turn ledger whose only qualifying entry (successful, with SQL) is
older than the five most recent entries. -/
def staleSuccessState : ContextManager :=
  applyOps (initCM 10 settings_max_tokens)
    [ContextOp.record 1 "a" (some "SELECT 1;") true "" 0,
     ContextOp.record 2 "b" none false "" 0,
     ContextOp.record 3 "c" none false "" 0,
     ContextOp.record 4 "d" none false "" 0,
     ContextOp.record 5 "e" none false "" 0,
     ContextOp.record 6 "f" none false "" 0]

/-! ## Lemmas about the eviction loops -/

theorem sumTokens_nil : sumTokens [] = 0 := rfl

theorem sumTokens_cons (e : ConversationEntry) (h : List ConversationEntry) :
    sumTokens (e :: h) = e.token_count + sumTokens h := by
  simp [sumTokens]

theorem sumTokens_append (h1 h2 : List ConversationEntry) :
    sumTokens (h1 ++ h2) = sumTokens h1 + sumTokens h2 := by
  simp [sumTokens]

theorem sumTokens_nonneg (h : List ConversationEntry)
    (hn : ∀ e ∈ h, 0 ≤ e.token_count) : 0 ≤ sumTokens h := by
  induction h with
  | nil => simp [sumTokens]
  | cons e rest ih =>
    rw [sumTokens_cons]
    have h1 := hn e (List.mem_cons_self e rest)
    have h2 := ih (fun x hx => hn x (List.mem_cons_of_mem e hx))
    omega

theorem evictOverCount_length_eq (h : List ConversationEntry) (tot : Int) (maxE : Nat) :
    (evictOverCount h tot maxE).1.length = min h.length maxE := by
  induction h generalizing tot with
  | nil => simp [evictOverCount]
  | cons e rest ih =>
    rw [evictOverCount]
    by_cases hc : maxE < (e :: rest).length
    · rw [if_pos hc, ih]
      simp only [List.length_cons] at hc ⊢
      omega
    · rw [if_neg hc]
      simp only [List.length_cons] at hc ⊢
      omega

theorem evictOverCount_suffix (h : List ConversationEntry) (tot : Int) (maxE : Nat) :
    (evictOverCount h tot maxE).1 <:+ h := by
  induction h generalizing tot with
  | nil => simp [evictOverCount]
  | cons e rest ih =>
    rw [evictOverCount]
    by_cases hc : maxE < (e :: rest).length
    · rw [if_pos hc]
      exact (ih _).trans (List.suffix_cons e rest)
    · rw [if_neg hc]

theorem evictOverCount_sum (h : List ConversationEntry) (tot : Int) (maxE : Nat)
    (hs : tot = sumTokens h) :
    (evictOverCount h tot maxE).2 = sumTokens (evictOverCount h tot maxE).1 := by
  induction h generalizing tot with
  | nil => simpa [evictOverCount, sumTokens] using hs
  | cons e rest ih =>
    rw [evictOverCount]
    by_cases hc : maxE < (e :: rest).length
    · rw [if_pos hc]
      refine ih _ ?_
      rw [sumTokens_cons] at hs
      omega
    · rw [if_neg hc]
      exact hs

theorem evictOverTokens_suffix (h : List ConversationEntry) (tot maxT : Int) :
    (evictOverTokens h tot maxT).1 <:+ h := by
  induction h generalizing tot with
  | nil => simp [evictOverTokens]
  | cons e rest ih =>
    cases rest with
    | nil => simp [evictOverTokens]
    | cons e2 rest2 =>
      rw [evictOverTokens]
      by_cases hc : 4 * maxT < 5 * tot
      · rw [if_pos hc]
        exact (ih _).trans (List.suffix_cons e _)
      · rw [if_neg hc]

theorem evictOverTokens_ne_nil (h : List ConversationEntry) (tot maxT : Int)
    (hne : h ≠ []) : (evictOverTokens h tot maxT).1 ≠ [] := by
  induction h generalizing tot with
  | nil => exact absurd rfl hne
  | cons e rest ih =>
    cases rest with
    | nil => simp [evictOverTokens]
    | cons e2 rest2 =>
      rw [evictOverTokens]
      by_cases hc : 4 * maxT < 5 * tot
      · rw [if_pos hc]
        exact ih _ (by simp)
      · rw [if_neg hc]
        simp

theorem evictOverTokens_sum (h : List ConversationEntry) (tot maxT : Int)
    (hs : tot = sumTokens h) :
    (evictOverTokens h tot maxT).2 = sumTokens (evictOverTokens h tot maxT).1 := by
  induction h generalizing tot with
  | nil => simpa [evictOverTokens, sumTokens] using hs
  | cons e rest ih =>
    cases rest with
    | nil => simpa [evictOverTokens] using hs
    | cons e2 rest2 =>
      rw [evictOverTokens]
      by_cases hc : 4 * maxT < 5 * tot
      · rw [if_pos hc]
        refine ih _ ?_
        rw [sumTokens_cons] at hs
        omega
      · rw [if_neg hc]
        exact hs

theorem evictOverTokens_post (h : List ConversationEntry) (tot maxT : Int) :
    5 * (evictOverTokens h tot maxT).2 ≤ 4 * maxT ∨
      (evictOverTokens h tot maxT).1.length ≤ 1 := by
  induction h generalizing tot with
  | nil => right; simp [evictOverTokens]
  | cons e rest ih =>
    cases rest with
    | nil => right; simp [evictOverTokens]
    | cons e2 rest2 =>
      rw [evictOverTokens]
      by_cases hc : 4 * maxT < 5 * tot
      · rw [if_pos hc]
        exact ih _
      · rw [if_neg hc]
        left
        omega

theorem suffix_getLast? {l1 l2 : List ConversationEntry}
    (hs : l1 <:+ l2) (hne : l1 ≠ []) : l1.getLast? = l2.getLast? := by
  obtain ⟨t, rfl⟩ := hs
  exact (List.getLast?_append_of_ne_nil t hne).symm

/-! ## Lemmas about `add_entry` -/

theorem add_entry_length_le (cm : ContextManager) (ts : Nat) (uq : String)
    (sq : Option String) (succ : Bool) (rs : String) (tc : Int) :
    (add_entry cm ts uq sq succ rs tc).conversation_history.length ≤ cm.max_entries := by
  unfold add_entry maintain_context_window
  have h1 := evictOverTokens_suffix
    (evictOverCount (cm.conversation_history ++ [mkEntry ts uq sq succ rs tc])
      (cm.total_tokens + tc) cm.max_entries).1
    (evictOverCount (cm.conversation_history ++ [mkEntry ts uq sq succ rs tc])
      (cm.total_tokens + tc) cm.max_entries).2 cm.max_tokens
  have h2 := evictOverCount_length_eq
    (cm.conversation_history ++ [mkEntry ts uq sq succ rs tc])
    (cm.total_tokens + tc) cm.max_entries
  have h3 := h1.sublist.length_le
  simp only at h2 ⊢
  omega

theorem add_entry_suffix (cm : ContextManager) (ts : Nat) (uq : String)
    (sq : Option String) (succ : Bool) (rs : String) (tc : Int) :
    (add_entry cm ts uq sq succ rs tc).conversation_history <:+
      cm.conversation_history ++ [mkEntry ts uq sq succ rs tc] := by
  unfold add_entry maintain_context_window
  exact (evictOverTokens_suffix _ _ _).trans (evictOverCount_suffix _ _ _)

theorem add_entry_getLast (cm : ContextManager) (ts : Nat) (uq : String)
    (sq : Option String) (succ : Bool) (rs : String) (tc : Int)
    (hE : 1 ≤ cm.max_entries) :
    (add_entry cm ts uq sq succ rs tc).conversation_history.getLast? =
      some (mkEntry ts uq sq succ rs tc) := by
  have hlen := evictOverCount_length_eq
    (cm.conversation_history ++ [mkEntry ts uq sq succ rs tc])
    (cm.total_tokens + tc) cm.max_entries
  have hne1 : (evictOverCount (cm.conversation_history ++ [mkEntry ts uq sq succ rs tc])
      (cm.total_tokens + tc) cm.max_entries).1 ≠ [] := by
    intro hx
    rw [hx] at hlen
    simp at hlen
    omega
  have hne2 := evictOverTokens_ne_nil _
    (evictOverCount (cm.conversation_history ++ [mkEntry ts uq sq succ rs tc])
      (cm.total_tokens + tc) cm.max_entries).2 cm.max_tokens hne1
  have hsuf := add_entry_suffix cm ts uq sq succ rs tc
  have := suffix_getLast? hsuf (by
    unfold add_entry maintain_context_window
    exact hne2)
  rw [this, List.getLast?_concat]

/-! ## Claim theorems: the validator -/

/-- C1: for every SQL string containing a deny-listed keyword as a whole
word (any case), provided `sqlparse` tokenizes the string into at least one
statement, `_validate_query` returns an invalid verdict whose reason names
a matched deny-listed keyword, regardless of the rest of the string. -/
theorem forbidden_keyword_always_rejected (po : SqlParseOracle) (q : String)
    (hp : po.parsesNonempty = true)
    (hkw : ∃ kw ∈ forbidden_keywords, containsWord kw q = true) :
    (validate_query po q).is_valid = false ∧
      ∃ kw ∈ forbidden_keywords, containsWord kw q = true ∧
        (validate_query po q).error = some ("Forbidden keyword found: " ++ kw) := by
  obtain ⟨kw0, hmem, hc⟩ := hkw
  have hsome : ∃ b, check_forbidden_keywords q = some b := by
    cases hfind : check_forbidden_keywords q with
    | none =>
      exact absurd hc (by simpa using List.find?_eq_none.mp hfind kw0 hmem)
    | some b => exact ⟨b, rfl⟩
  obtain ⟨b, hb⟩ := hsome
  have hb2 : forbidden_keywords.find? (fun kw => containsWord kw q) = some b := hb
  have hpb : containsWord b q = true := by simpa using List.find?_some hb2
  have hbm : b ∈ forbidden_keywords := List.mem_of_find?_eq_some hb2
  refine ⟨?_, b, hbm, hpb, ?_⟩ <;> simp [validate_query, hp, hb]

/-- Witness for C1 at the concrete input of Scenario B. -/
theorem forbidden_keyword_always_rejected_witness :
    ((SqlParseOracle.mk true false).parsesNonempty = true ∧
      ∃ kw ∈ forbidden_keywords, containsWord kw "DROP TABLE stores;" = true) ∧
    ((validate_query (SqlParseOracle.mk true false) "DROP TABLE stores;").is_valid = false ∧
      ∃ kw ∈ forbidden_keywords, containsWord kw "DROP TABLE stores;" = true ∧
        (validate_query (SqlParseOracle.mk true false) "DROP TABLE stores;").error =
          some ("Forbidden keyword found: " ++ kw)) :=
  ⟨⟨rfl, "DROP", by decide, by decide⟩,
    forbidden_keyword_always_rejected (SqlParseOracle.mk true false)
      "DROP TABLE stores;" rfl ⟨"DROP", by decide, by decide⟩⟩

/-- C2: a parseable leading-SELECT string with no deny-listed keyword, only
allow-listed table names after FROM/JOIN, and no injection pattern is
accepted, and the verdict carries exactly the deduplicated extracted table
names; in particular Scenario A returns valid with tables `["stores"]`. -/
theorem valid_select_accepted :
    (∀ (po : SqlParseOracle) (q : String),
      po.parsesNonempty = true →
      po.firstIsSelect = true →
      (∀ kw ∈ forbidden_keywords, containsWord kw q = false) →
      (∀ t ∈ extract_table_names q, valid_tables.contains (pyLower t) = true) →
      (∀ p ∈ injection_patterns, injMatches p q = false) →
      (validate_query po q).is_valid = true ∧
        (validate_query po q).tables_used = some (extract_table_names q)) ∧
    ((validate_query (SqlParseOracle.mk true true) "SELECT * FROM stores;").is_valid = true ∧
      (validate_query (SqlParseOracle.mk true true) "SELECT * FROM stores;").tables_used =
        some ["stores"]) := by
  constructor
  · intro po q hp hsel hkw htab hinj
    have hforb : check_forbidden_keywords q = none :=
      List.find?_eq_none.mpr (fun kw hm => by simp [hkw kw hm])
    have htabs : validate_table_names q = [] := by
      unfold validate_table_names
      exact List.filter_eq_nil_iff.mpr (fun t ht => by simpa using htab t ht)
    have hinjn : check_sql_injection q = none := by
      unfold check_sql_injection
      rw [List.find?_eq_none.mpr (fun p hm => by simp [hinj p hm])]
    constructor <;> simp [validate_query, hp, hsel, hforb, htabs, hinjn]
  · constructor <;> decide

/-- Witness for C2 at the concrete input of Scenario A. -/
theorem valid_select_accepted_witness :
    ((∀ kw ∈ forbidden_keywords, containsWord kw "SELECT * FROM stores;" = false) ∧
      (∀ t ∈ extract_table_names "SELECT * FROM stores;",
        valid_tables.contains (pyLower t) = true) ∧
      (∀ p ∈ injection_patterns, injMatches p "SELECT * FROM stores;" = false)) ∧
    (validate_query (SqlParseOracle.mk true true) "SELECT * FROM stores;").is_valid = true :=
  ⟨⟨by decide, by decide, by decide⟩,
    (valid_select_accepted.1 (SqlParseOracle.mk true true) "SELECT * FROM stores;"
      rfl rfl (by decide) (by decide) (by decide)).1⟩

/-- Counterexample to C7 as stated: `DELETE FROM stores;` is a non-SELECT
statement whose referenced tables are all valid, yet the verdict's reason
is the forbidden-keyword one, not "Only SELECT statements are allowed",
because the keyword scan runs first. -/
theorem non_select_reason_counterexample :
    (SqlParseOracle.mk true false).firstIsSelect = false ∧
    validate_table_names "DELETE FROM stores;" = [] ∧
    (validate_query (SqlParseOracle.mk true false) "DELETE FROM stores;").is_valid = false ∧
    (validate_query (SqlParseOracle.mk true false) "DELETE FROM stores;").error =
      some "Forbidden keyword found: DELETE" ∧
    ¬((validate_query (SqlParseOracle.mk true false) "DELETE FROM stores;").error =
      some "Only SELECT statements are allowed") := by
  refine ⟨rfl, by decide, by decide, by decide, by decide⟩

/-- C7 (amended): for every parseable SQL string that contains no
deny-listed keyword and whose statement kind is not SELECT, `validate`
rejects with reason "Only SELECT statements are allowed", even when every
referenced table is valid. -/
theorem non_select_rejected (po : SqlParseOracle) (q : String)
    (hp : po.parsesNonempty = true)
    (hsel : po.firstIsSelect = false)
    (hkw : ∀ kw ∈ forbidden_keywords, containsWord kw q = false) :
    (validate_query po q).is_valid = false ∧
      (validate_query po q).error = some "Only SELECT statements are allowed" := by
  have hforb : check_forbidden_keywords q = none :=
    List.find?_eq_none.mpr (fun kw hm => by simp [hkw kw hm])
  constructor <;> simp [validate_query, hp, hsel, hforb]

/-- Witness for the amended C7 at a concrete non-SELECT statement. -/
theorem non_select_rejected_witness :
    ((SqlParseOracle.mk true false).parsesNonempty = true ∧
      (SqlParseOracle.mk true false).firstIsSelect = false ∧
      (∀ kw ∈ forbidden_keywords, containsWord kw "BEGIN;" = false)) ∧
    ((validate_query (SqlParseOracle.mk true false) "BEGIN;").is_valid = false ∧
      (validate_query (SqlParseOracle.mk true false) "BEGIN;").error =
        some "Only SELECT statements are allowed") :=
  ⟨⟨rfl, rfl, by decide⟩,
    non_select_rejected (SqlParseOracle.mk true false) "BEGIN;" rfl rfl (by decide)⟩

/-- C9: the validator is deterministic: its verdict is a function of the
query string and the `sqlparse` answers alone, so two calls on the same
string yield identical verdicts. -/
theorem validate_deterministic (po po2 : SqlParseOracle) (q q2 : String)
    (hpo : po = po2) (hq : q = q2) :
    validate_query po q = validate_query po2 q2 := by
  rw [hpo, hq]

/-- Witness for C9 at a concrete input. -/
theorem validate_deterministic_witness :
    validate_query (SqlParseOracle.mk true true) "SELECT * FROM orders;" =
      validate_query (SqlParseOracle.mk true true) "SELECT * FROM orders;" :=
  validate_deterministic (SqlParseOracle.mk true true) (SqlParseOracle.mk true true)
    "SELECT * FROM orders;" "SELECT * FROM orders;" rfl rfl

/-! ## Claim theorems: SQL cleanup -/

theorem endsWithSemi_ensureSemi (l : List Char) : endsWithSemi (ensureSemi l) = true := by
  unfold ensureSemi
  cases h : endsWithSemi l with
  | true => simp [h]
  | false => simp [h, endsWithSemi, List.getLast?_concat]

/-- Counterexample to C8 as stated: on raw text already ending in a double
semicolon the cleaned string ends with two semicolons, not exactly one; and
removing a "SQL:" label can reassemble a code-fence marker, so the cleaned
string is not always fence-free. -/
theorem cleanup_counterexample :
    clean_sql_query "SELECT 1;;" = "SELECT 1;;" ∧
    endsWithExactlyOneSemi (clean_sql_query "SELECT 1;;") = false ∧
    containsLit "```".toList (clean_sql_query "``SQL:` SELECT 1").toList = true := by
  refine ⟨by decide, by decide, by decide⟩

/-- C8 (amended): the cleanup strips fence markers and SQL:/Query: labels,
collapses whitespace runs, and appends a semicolon when absent, so the
string handed to validation always ends with a semicolon (possibly more
than one; label removal may also reassemble fence characters). -/
theorem cleanup_ends_with_semicolon (s : String) :
    endsWithSemi (clean_sql_query s).toList = true := by
  unfold clean_sql_query
  exact endsWithSemi_ensureSemi _

/-! ## Claim theorems: the context manager -/

/-- C3: after every ledger mutation the entry count is at most
`max_entries`; an `add_entry` only evicts from the oldest end (the new
ledger is a suffix of the old ledger with the new entry appended, so no
reordering); and Scenario D: recording 12 entries of cost 1 with
`max_entries = 10` leaves exactly entries 3 through 12. -/
theorem context_window_bound_and_fifo :
    (∀ (cm : ContextManager) (op : ContextOp),
      (applyOp cm op).conversation_history.length ≤ cm.max_entries) ∧
    (∀ (cm : ContextManager) (ts : Nat) (uq : String) (sq : Option String)
      (succ : Bool) (rs : String) (tc : Int),
      (add_entry cm ts uq sq succ rs tc).conversation_history <:+
        cm.conversation_history ++ [mkEntry ts uq sq succ rs tc]) ∧
    (applyOps (initCM 10 settings_max_tokens)
        ((List.range 12).map (fun i => ContextOp.record (i + 1) "q" none false "" 1))).conversation_history =
      (List.range 10).map (fun i => mkEntry (i + 3) "q" none false "" 1) := by
  refine ⟨?_, add_entry_suffix, ?_⟩
  · intro cm op
    cases op with
    | record ts uq sq succ rs tc => exact add_entry_length_le cm ts uq sq succ rs tc
    | clear => simp [applyOp, clear_context]
  · decide

theorem maintain_post (cm : ContextManager) (hcons : consistent cm)
    (hmt : 0 ≤ cm.max_tokens) :
    5 * (maintain_context_window cm).total_tokens ≤ 4 * cm.max_tokens ∨
      (maintain_context_window cm).conversation_history.length = 1 := by
  have h1 := evictOverCount_sum cm.conversation_history cm.total_tokens cm.max_entries hcons
  have h2 := evictOverTokens_sum
    (evictOverCount cm.conversation_history cm.total_tokens cm.max_entries).1
    (evictOverCount cm.conversation_history cm.total_tokens cm.max_entries).2
    cm.max_tokens h1
  have h3 := evictOverTokens_post
    (evictOverCount cm.conversation_history cm.total_tokens cm.max_entries).1
    (evictOverCount cm.conversation_history cm.total_tokens cm.max_entries).2
    cm.max_tokens
  unfold maintain_context_window
  simp only
  rcases h3 with h3 | h3
  · exact Or.inl h3
  · rcases Nat.le_one_iff_eq_zero_or_eq_one.mp h3 with h0 | h1l
    · left
      have hnil := List.length_eq_zero.mp h0
      rw [hnil] at h2
      rw [h2, sumTokens_nil]
      omega
    · right
      exact h1l

/-- C4: from any consistent ledger state with a non-negative token budget,
after `add_entry` either the running total is at most 0.8 × `max_tokens`
(modelled exactly as `5 · total ≤ 4 · max_tokens`) or exactly one entry
remains; and with a positive entry cap the newest entry is never evicted,
even when its cost alone exceeds the budget. -/
theorem token_eviction_threshold_or_last (cm : ContextManager) (ts : Nat)
    (uq : String) (sq : Option String) (succ : Bool) (rs : String) (tc : Int)
    (hcons : consistent cm) (hmt : 0 ≤ cm.max_tokens) :
    (5 * (add_entry cm ts uq sq succ rs tc).total_tokens ≤ 4 * cm.max_tokens ∨
      (add_entry cm ts uq sq succ rs tc).conversation_history.length = 1) ∧
    (1 ≤ cm.max_entries →
      (add_entry cm ts uq sq succ rs tc).conversation_history.getLast? =
        some (mkEntry ts uq sq succ rs tc)) := by
  constructor
  · have hcons2 : consistent
        { cm with
          conversation_history :=
            cm.conversation_history ++ [mkEntry ts uq sq succ rs tc],
          total_tokens := cm.total_tokens + tc } := by
      unfold consistent at hcons ⊢
      simp only
      rw [sumTokens_append, sumTokens_cons, sumTokens_nil, hcons]
      simp [mkEntry]
    have hpost := maintain_post
      { cm with
        conversation_history :=
          cm.conversation_history ++ [mkEntry ts uq sq succ rs tc],
        total_tokens := cm.total_tokens + tc } hcons2 hmt
    simpa [add_entry] using hpost
  · exact add_entry_getLast cm ts uq sq succ rs tc

/-- Witness for C4: an empty consistent manager receiving an entry whose
cost (5000) alone exceeds the 0.8 × 4000 threshold keeps exactly that
entry. -/
theorem token_eviction_threshold_or_last_witness :
    (consistent (initCM 10 4000) ∧ (0 : Int) ≤ (initCM 10 4000).max_tokens ∧
      1 ≤ (initCM 10 4000).max_entries) ∧
    ((5 * (add_entry (initCM 10 4000) 1 "q" none false "" 5000).total_tokens ≤ 4 * (initCM 10 4000).max_tokens ∨
      (add_entry (initCM 10 4000) 1 "q" none false "" 5000).conversation_history.length = 1) ∧
      (add_entry (initCM 10 4000) 1 "q" none false "" 5000).conversation_history.getLast? =
        some (mkEntry 1 "q" none false "" 5000)) :=
  ⟨⟨rfl, by decide, by decide⟩,
    ⟨(token_eviction_threshold_or_last (initCM 10 4000) 1 "q" none false "" 5000
        rfl (by decide)).1,
      (token_eviction_threshold_or_last (initCM 10 4000) 1 "q" none false "" 5000
        rfl (by decide)).2 (by decide)⟩⟩

theorem add_entry_consistent (cm : ContextManager) (ts : Nat) (uq : String)
    (sq : Option String) (succ : Bool) (rs : String) (tc : Int)
    (hcons : consistent cm) :
    consistent (add_entry cm ts uq sq succ rs tc) := by
  have hsum1 : cm.total_tokens + tc =
      sumTokens (cm.conversation_history ++ [mkEntry ts uq sq succ rs tc]) := by
    rw [sumTokens_append, sumTokens_cons, sumTokens_nil, hcons]
    simp [mkEntry]
  have h1 := evictOverCount_sum
    (cm.conversation_history ++ [mkEntry ts uq sq succ rs tc])
    (cm.total_tokens + tc) cm.max_entries hsum1
  have h2 := evictOverTokens_sum
    (evictOverCount (cm.conversation_history ++ [mkEntry ts uq sq succ rs tc])
      (cm.total_tokens + tc) cm.max_entries).1
    (evictOverCount (cm.conversation_history ++ [mkEntry ts uq sq succ rs tc])
      (cm.total_tokens + tc) cm.max_entries).2
    cm.max_tokens h1
  unfold consistent add_entry maintain_context_window
  simpa using h2

/-- C10: the accounting invariant `total_tokens = Σ token_count` holds for
a fresh manager and is preserved by every mutation (`add_entry`, including
its eviction phase, and `clear_context`), given non-negative recorded
token counts. -/
theorem total_tokens_accounting :
    (∀ (maxE : Nat) (maxT : Int), consistent (initCM maxE maxT)) ∧
    (∀ (cm : ContextManager) (op : ContextOp),
      consistent cm → opTokenNonneg op → consistent (applyOp cm op)) := by
  constructor
  · intro maxE maxT
    rfl
  · intro cm op hcons hnn
    cases op with
    | record ts uq sq succ rs tc => exact add_entry_consistent cm ts uq sq succ rs tc hcons
    | clear => rfl

/-- Witness for C10 at a concrete mutation. -/
theorem total_tokens_accounting_witness :
    (consistent (initCM 10 4000) ∧ opTokenNonneg (ContextOp.record 1 "q" none false "" 3)) ∧
    consistent (applyOp (initCM 10 4000) (ContextOp.record 1 "q" none false "" 3)) :=
  ⟨⟨rfl, (by decide : (0 : Int) ≤ 3)⟩,
    total_tokens_accounting.2 (initCM 10 4000) (ContextOp.record 1 "q" none false "" 3)
      rfl (by decide : (0 : Int) ≤ 3)⟩

/-- Counterexample to C5 as stated: in `staleSuccessState` the unique
qualifying entry is among the five most recent qualifying entries of the
ledger, yet `get_context_for_llm` returns an empty payload, because the
source filters only within the last five ledger entries. -/
theorem context_for_generation_counterexample :
    (get_context_for_llm staleSuccessState).previous_queries = [] ∧
    mostRecentFiveQualifying staleSuccessState.conversation_history =
      [mkEntry 1 "a" (some "SELECT 1;") true "" 0] := by
  constructor <;> decide

/-- C5 (amended): `get_context_for_llm` returns the qualifying entries
among the LAST FIVE ledger entries: at most five results, never an entry
with `success = false` or an unset/empty `sql_query`, in chronological
ledger order. -/
theorem context_for_generation_filtered (cm : ContextManager) :
    (get_context_for_llm cm).previous_queries.length ≤ 5 ∧
    List.Sublist (get_context_for_llm cm).previous_queries
      (cm.conversation_history.map projPrevQuery) ∧
    (∀ p ∈ (get_context_for_llm cm).previous_queries,
      ∃ en ∈ cm.conversation_history,
        en.success = true ∧ optTruthy en.sql_query = true ∧ p = projPrevQuery en) := by
  have hpq : (get_context_for_llm cm).previous_queries =
      ((lastN 5 cm.conversation_history).filter qualifiesForContext).map projPrevQuery := by
    cases hh : cm.conversation_history with
    | nil => simp [get_context_for_llm, hh, lastN]
    | cons e0 rest => simp [get_context_for_llm, hh, projPrevQuery]
  refine ⟨?_, ?_, ?_⟩
  · rw [hpq, List.length_map]
    calc ((lastN 5 cm.conversation_history).filter qualifiesForContext).length
        ≤ (lastN 5 cm.conversation_history).length := List.length_filter_le _ _
      _ ≤ 5 := by
          unfold lastN
          rw [List.length_drop]
          omega
  · rw [hpq]
    exact List.Sublist.map projPrevQuery
      ((List.filter_sublist _).trans (List.drop_sublist _ _))
  · intro p hp
    rw [hpq] at hp
    obtain ⟨en, henf, rfl⟩ := List.mem_map.mp hp
    obtain ⟨hmem, hq⟩ := List.mem_filter.mp henf
    have hq2 : en.success = true ∧ optTruthy en.sql_query = true := by
      simpa [qualifiesForContext] using hq
    exact ⟨en, List.drop_subset _ _ hmem, hq2.1, hq2.2, rfl⟩

/-- Witness for the amended C5 at a concrete six-entry ledger. -/
theorem context_for_generation_filtered_witness :
    (get_context_for_llm staleSuccessState).previous_queries.length ≤ 5 ∧
    List.Sublist (get_context_for_llm staleSuccessState).previous_queries
      (staleSuccessState.conversation_history.map projPrevQuery) :=
  ⟨(context_for_generation_filtered staleSuccessState).1,
    (context_for_generation_filtered staleSuccessState).2.1⟩

/-! ## Claim theorem: the orchestration pipeline -/

/-- C6: `process_query` is total (a pure function of its oracles, so it
always returns a structured outcome and never raises); when the
generation-stage collaborator fails, the turn is reported with
`success = false`, a non-empty error string, and is recorded in the ledger
with `sql_query = none` and `success = false`. -/
theorem generation_failure_structured (e : String) (po : String → SqlParseOracle)
    (execRun : String → ExecResult) (fmtSuccess : ExecResult → Except String String)
    (cm : ContextManager) (ts : Nat) (uq : String) (hE : 1 ≤ cm.max_entries) :
    (process_query (Except.error e) po execRun fmtSuccess cm ts uq).1.success = false ∧
    (process_query (Except.error e) po execRun fmtSuccess cm ts uq).1.sql_query = none ∧
    (∃ s, (process_query (Except.error e) po execRun fmtSuccess cm ts uq).1.error_message = some s ∧
      s ≠ "") ∧
    (∃ en, (process_query (Except.error e) po execRun fmtSuccess cm ts uq).2.conversation_history.getLast? =
        some en ∧ en.success = false ∧ en.sql_query = none ∧ en.user_query = uq) := by
  have hpq : process_query (Except.error e) po execRun fmtSuccess cm ts uq =
      ({ success := false, user_query := uq, sql_query := none,
         formatted_result := none, error_message := some "No SQL query to validate" },
       add_entry cm ts uq none false "Error: No SQL query to validate"
         ((countWords uq : Int) + (countWords "" : Int))) := rfl
  refine ⟨by rw [hpq], by rw [hpq],
    ⟨"No SQL query to validate", by rw [hpq], by decide⟩, ?_⟩
  refine ⟨mkEntry ts uq none false "Error: No SQL query to validate"
    ((countWords uq : Int) + (countWords "" : Int)), ?_, rfl, rfl, rfl⟩
  rw [hpq]
  exact add_entry_getLast cm ts uq none false "Error: No SQL query to validate"
    ((countWords uq : Int) + (countWords "" : Int)) hE

/-- Witness for C6 with a concrete failing generator and fresh manager. -/
theorem generation_failure_structured_witness :
    (1 ≤ (initCM 10 4000).max_entries) ∧
    (process_query (Except.error "boom") (fun _ => SqlParseOracle.mk true true)
        (fun _ => { success := false, row_count := 0, error := none, truncated := false })
        (fun _ => Except.ok "") (initCM 10 4000) 7 "list stores").1.success = false ∧
    (∃ en, (process_query (Except.error "boom") (fun _ => SqlParseOracle.mk true true)
        (fun _ => { success := false, row_count := 0, error := none, truncated := false })
        (fun _ => Except.ok "") (initCM 10 4000) 7 "list stores").2.conversation_history.getLast? =
          some en ∧ en.success = false ∧ en.sql_query = none ∧ en.user_query = "list stores") :=
  ⟨by decide,
    (generation_failure_structured "boom" (fun _ => SqlParseOracle.mk true true)
      (fun _ => { success := false, row_count := 0, error := none, truncated := false })
      (fun _ => Except.ok "") (initCM 10 4000) 7 "list stores" (by decide)).1,
    (generation_failure_structured "boom" (fun _ => SqlParseOracle.mk true true)
      (fun _ => { success := false, row_count := 0, error := none, truncated := false })
      (fun _ => Except.ok "") (initCM 10 4000) 7 "list stores" (by decide)).2.2.2⟩

end TextToSQL
